import Mathlib

/-!
Shallow embedding of `check_proxies.py`: the three proxy handshakes
(`handshake_socks5`, `handshake_socks4`, `handshake_http`), the cached
geolocation lookup (`get_country`), the single-endpoint prober
(`measure_proxy_connection`) and the batch runner (`process_file`),
together with theorems settling the specification claims.

Modelling conventions:
- bytes are `Nat`, byte strings are `List Nat`;
- a connected socket is a `Conn` scripting what its single `recv` call
  yields: `none` means the read raises (timeout / transport error),
  `some bs` means the bytes available, of which `recv n` returns the
  first `n`;
- a handshake returns `Except Unit Bool` (`.error` models a Python
  exception escaping the function) paired with the log of bytes it
  wrote with `sendall` (`sendall` itself is modelled as succeeding);
- the external geolocation HTTP query is an oracle `String → ApiResult`;
- the wall clock is abstracted: the measured latency is a `ℚ` parameter.
-/

/-- Model of a connected, deadline-bound socket.  `reply = none`: the
read raises (timeout or transport failure); `reply = some bs`: the bytes
the peer made available, `recv n` returns the first `n` of them. -/
structure Conn where
  reply : Option (List Nat)

/-- Model of Python `s.recv n`: at most `n` bytes, or an exception. -/
def Conn.recv (s : Conn) (n : Nat) : Except Unit (List Nat) :=
  match s.reply with
  | none => .error ()
  | some bs => .ok (bs.take n)

/-- Byte list of an ASCII string literal. -/
def strBytes (s : String) : List Nat := s.toList.map Char.toNat

/-! ### `socket.inet_aton`

`handshake_socks4` calls `socket.inet_aton`, which on Linux is the C
library's classic "numbers-and-dots" parser: one to four parts separated
by dots, each part a `strtoul`-style number (`0x…` hex, leading-`0`
octal, else decimal); at most three dotted parts each at most `0xff`;
the last part bounded by how many address bytes remain; trailing
characters allowed only after an ASCII whitespace character. -/

/-- Hexadecimal digit value. -/
def hexVal? (c : Char) : Option Nat :=
  if '0' ≤ c ∧ c ≤ '9' then some (c.toNat - 48)
  else if 'a' ≤ c ∧ c ≤ 'f' then some (c.toNat - 87)
  else if 'A' ≤ c ∧ c ≤ 'F' then some (c.toNat - 55)
  else none

/-- Octal digit value. -/
def octVal? (c : Char) : Option Nat :=
  if '0' ≤ c ∧ c ≤ '7' then some (c.toNat - 48) else none

/-- Decimal digit value. -/
def decVal? (c : Char) : Option Nat :=
  if c.isDigit then some (c.toNat - 48) else none

/-- Consume a run of digits of the given base, accumulating the value. -/
def scanDigits (dv : Char → Option Nat) (base : Nat) :
    List Char → Nat → Nat × List Char
  | c :: cs, acc =>
    match dv c with
    | some d => scanDigits dv base cs (acc * base + d)
    | none => (acc, c :: cs)
  | [], acc => (acc, [])

/-- `strtoul` with base detection (base 0), on input whose first
character is a decimal digit: `0x`/`0X` introduces hex (falling back to
the bare `0` when no hex digit follows), a leading `0` introduces octal,
anything else is decimal.  Returns the value and the unconsumed rest. -/
def scanNumber : List Char → Option (Nat × List Char)
  | '0' :: c :: cs =>
    if c = 'x' ∨ c = 'X' then
      match cs with
      | d :: _ =>
        match hexVal? d with
        | some _ => some (scanDigits hexVal? 16 cs 0)
        | none => some (0, c :: cs)
      | [] => some (0, c :: cs)
    else some (scanDigits octVal? 8 (c :: cs) 0)
  | ['0'] => some (0, [])
  | c :: cs =>
    match decVal? c with
    | some d => some (scanDigits decVal? 10 cs d)
    | none => none
  | [] => none

/-- C `isspace` on ASCII. -/
def isCSpace (c : Char) : Bool :=
  c = ' ' ∨ c = '\t' ∨ c = '\n' ∨ c.toNat = 11 ∨ c.toNat = 12 ∨ c = '\r'

/-- The parts loop of `inet_aton`: parse up to three dot-terminated
parts (each at most `0xff`) followed by a last value.  The fuel bound 4
is never hit on accepted inputs.  Returns the stored parts and the last
value. -/
def atonParts : Nat → List Char → List Nat → Option (List Nat × Nat)
  | fuel + 1, cs, parts =>
    match scanNumber cs with
    | none => none
    | some (val, rest) =>
      if val > 0xffffffff then none
      else
        match rest with
        | '.' :: rest2 =>
          if parts.length > 2 ∨ val > 0xff then none
          else atonParts fuel rest2 (parts ++ [val])
        | [] => some (parts, val)
        | c :: _ =>
          if c.toNat < 128 ∧ isCSpace c then some (parts, val) else none
  | 0, _, _ => none

/-- Model of `socket.inet_aton host`: the parsed 4 address bytes, or
`none` when the C parser rejects the string (the Python call then raises
`OSError`). -/
def inet_aton (host : String) : Option (List Nat) :=
  match atonParts 4 host.toList [] with
  | none => none
  | some (parts, val) =>
    let n := parts.length
    let bound : Nat :=
      if n = 0 then 0xffffffff
      else if n = 1 then 0xffffff
      else if n = 2 then 0xffff
      else 0xff
    if val > bound then none
    else
      let word := (parts.foldl (fun acc p => acc * 256 + p) 0) * 256 ^ (4 - n) + val
      some [word / 16777216 % 256, word / 65536 % 256, word / 256 % 256, word % 256]

/-! ### The three handshakes -/

/-- Model of `handshake_socks5`: send the greeting `05 01 00`, read 2
bytes, succeed iff they equal `05 00`.  Result paired with the bytes
written. -/
def handshake_socks5 (s : Conn) (_host : String) (_port : Int) :
    Except Unit Bool × List Nat :=
  let sent := [0x05, 0x01, 0x00]
  match s.recv 2 with
  | .error e => (.error e, sent)
  | .ok r => (.ok (r == [0x05, 0x00]), sent)

/-- Model of `handshake_socks4`: parse the host with `inet_aton`
(returning `False` with no write on `OSError`), build the 9-byte CONNECT
request `04 01 ⟨port big-endian⟩ ⟨4 address bytes⟩ 00`, read 8 bytes,
succeed iff 8 bytes arrived and byte 1 is `0x5A`.  A port outside
0..65535 makes `port.to_bytes(2, 'big')` raise `OverflowError`, modelled
as `.error` before any write. -/
def handshake_socks4 (s : Conn) (host : String) (port : Int) :
    Except Unit Bool × List Nat :=
  match inet_aton host with
  | none => (.ok false, [])
  | some ip_bytes =>
    if port < 0 ∨ 65535 < port then (.error (), [])
    else
      let p := port.toNat
      let req := [0x04, 0x01] ++ [p / 256, p % 256] ++ ip_bytes ++ [0x00]
      match s.recv 8 with
      | .error e => (.error e, req)
      | .ok resp => (.ok (resp.length == 8 && resp.getD 1 0 == 0x5A), req)

/-- The fixed request bytes `handshake_http` writes. -/
def httpRequest : List Nat :=
  strBytes "GET http://example.com/ HTTP/1.0\r\nHost: example.com\r\n\r\n"

/-- Model of `handshake_http`: send the fixed GET request, read 7 bytes,
succeed iff they start with `HTTP/`. -/
def handshake_http (s : Conn) (_host : String) (_port : Int) :
    Except Unit Bool × List Nat :=
  match s.recv 7 with
  | .error e => (.error e, httpRequest)
  | .ok resp => (.ok ((strBytes "HTTP/").isPrefixOf resp), httpRequest)

/-! ### Geolocation lookup -/

/-- Outcome of the external `requests.get` geolocation query for one
host: `exc` models any exception escaping `requests.get` (timeout,
transport error); `resp status body` a returned response, where `body =
none` models `r.json()` raising on a malformed payload, and `body = some
field` the parsed JSON object's optional `countryCode` field. -/
inductive ApiResult where
  | exc : ApiResult
  | resp : Nat → Option (Option String) → ApiResult

/-- The geolocation query failed: exception, non-200 status, malformed
payload, or missing `countryCode` field. -/
def apiFailed : ApiResult → Prop
  | .exc => True
  | .resp status body => status ≠ 200 ∨ body = none ∨ body = some none

/-- The country value computed from one query outcome:
`r.json().get("countryCode", "??") if r.status_code == 200 else "??"`,
with every exception degraded to `"??"` by the `except` clause. -/
def countryOf : ApiResult → String
  | .exc => "??"
  | .resp status body =>
    if status == 200 then
      match body with
      | none => "??"
      | some field => field.getD "??"
    else "??"

/-- Model of `get_country`: consult the cache; on a miss query the
oracle once, degrade every failure to `"??"`, and cache the result.
Returns the country, the updated cache, and how many external queries
were issued (0 or 1). -/
def get_country (api : String → ApiResult) (ip : String)
    (cache : List (String × String)) :
    String × List (String × String) × Nat :=
  match cache.lookup ip with
  | some c => (c, cache, 0)
  | none =>
    let country := countryOf (api ip)
    (country, ((ip, country) :: cache, 1))

/-! ### The prober -/

/-- Model of Python `str.strip()` (ASCII whitespace). -/
def pyStrip (s : String) : String :=
  ⟨((s.toList.dropWhile Char.isWhitespace).reverse.dropWhile
      Char.isWhitespace).reverse⟩

/-- Digit run of Python `int()`, allowing single underscores between
digits. -/
def pyDigitsAux : List Char → Nat → Option Nat
  | [], acc => some acc
  | c :: rest, acc =>
    if c.isDigit then pyDigitsAux rest (acc * 10 + (c.toNat - 48))
    else if c = '_' then
      match rest with
      | d :: rest2 =>
        if d.isDigit then pyDigitsAux rest2 (acc * 10 + (d.toNat - 48))
        else none
      | [] => none
    else none

/-- Nonempty digit sequence (first character must be a digit). -/
def pyNat? : List Char → Option Nat
  | [] => none
  | c :: rest => if c.isDigit then pyDigitsAux rest (c.toNat - 48) else none

/-- Model of Python `int(str)`: strip whitespace, optional sign, decimal
digits (with underscore separators); `none` models `ValueError`. -/
def pyInt (s : String) : Option Int :=
  match (pyStrip s).toList with
  | '+' :: rest => (pyNat? rest).map Int.ofNat
  | '-' :: rest => (pyNat? rest).map (fun n => -(n : Int))
  | l => (pyNat? l).map Int.ofNat

/-- Split a character list at every occurrence of a separator. -/
def splitOnChar (sep : Char) : List Char → List (List Char)
  | [] => [[]]
  | c :: cs =>
    match splitOnChar sep cs with
    | [] => [[c]]
    | p :: ps => if c = sep then [] :: p :: ps else (c :: p) :: ps

/-- The parse step of `measure_proxy_connection`:
`host, port_str = proxy.split(':')` (exactly two pieces) then
`int(port_str)`; `none` models the `ValueError` of either step. -/
def parseProxy (proxy : String) : Option (String × Int) :=
  match splitOnChar ':' proxy.toList with
  | [host, portStr] =>
    (pyInt (String.mk portStr)).map (fun p => (String.mk host, p))
  | _ => none

/-- A successful probe result: endpoint literal, latency, country. -/
abbrev ProbeResult := String × ℚ × String

/-- Model of `measure_proxy_connection`: parse the literal, connect
(`connect host port = none` models any exception from
`socket.create_connection`), run the handshake, and on success return
the literal, the elapsed latency and the resolved country, threading the
geolocation cache.  Every modelled exception yields `none` (the `except
Exception: return None` catch-all). -/
def measure_proxy_connection (connect : String → Int → Option Conn)
    (api : String → ApiResult)
    (handshake : Conn → String → Int → Except Unit Bool × List Nat)
    (elapsed : ℚ) (cache : List (String × String)) (proxy : String) :
    Option ProbeResult × List (String × String) :=
  match parseProxy proxy with
  | none => (none, cache)
  | some (host, port) =>
    match connect host port with
    | none => (none, cache)
    | some s =>
      match (handshake s host port).1 with
      | .error _ => (none, cache)
      | .ok false => (none, cache)
      | .ok true =>
        let gc := get_country api host cache
        (some (proxy, elapsed, gc.1), gc.2.1)

/-! ### The batch runner -/

/-- Latency comparison used by `results.sort(key=lambda x: x[1])`. -/
def pingLE (a b : ProbeResult) : Bool := decide (a.2.1 ≤ b.2.1)

/-- Model of `results.sort(key=lambda x: x[1])`: Python's sort is a
stable merge sort. -/
def sortResults (results : List ProbeResult) : List ProbeResult :=
  results.mergeSort pingLE

/-- Rendering of Python's two-decimal float format `ping:.2f` over `ℚ`:
round to hundredths and print with exactly two decimals.  (CPython
rounds the binary double to even on ties; over the rationals modelled
here the two agree away from exact half-hundredths.) -/
def fmt2 (q : ℚ) : String :=
  let n := (⌊q * 100 + 1 / 2⌋).toNat
  toString (n / 100) ++ "." ++ (if n % 100 < 10 then "0" else "") ++
    toString (n % 100)

/-- One output line, `f"{proxy} (ping: {ping:.2f}s, country: {country})"`. -/
def formatLine (r : ProbeResult) : String :=
  r.1 ++ " (ping: " ++ fmt2 r.2.1 ++ "s, country: " ++ r.2.2 ++ ")"

/-- The non-blank stripped lines of the input file:
`[line.strip() for line in f if line.strip()]`. -/
def nonBlankLines (lines : List String) : List String :=
  (lines.map pyStrip).filter (fun l => l ≠ "")

/-- Model of the scheduler: one future per input line
(`executor.submit(measure_proxy_connection, p, handshake_fn)` for each
`p`), each completing with its probe's result. -/
def runAll (probe : String → Option ProbeResult) (proxies : List String) :
    List (String × Option ProbeResult) :=
  proxies.map (fun p => (p, probe p))

/-- The collection loop: keep the non-`None` results, in the order the
futures completed. -/
def collectResults (completed : List (String × Option ProbeResult)) :
    List ProbeResult :=
  completed.filterMap (fun pr => pr.2)

/-- Sort the collected results by latency and format each line. -/
def writeLines (results : List ProbeResult) : List String :=
  (sortResults results).map formatLine

/-- Model of `process_file`: `input = none` is a missing file
(`FileNotFoundError`, no artifact); an empty proxy list also produces no
artifact; otherwise the artifact's lines are the sorted, formatted
successful results.  The probe function abstracts
`measure_proxy_connection` applied to the batch's handshake. -/
def process_file (probe : String → Option ProbeResult)
    (input : Option (List String)) : Option (List String) :=
  match input with
  | none => none
  | some lines =>
    let proxies := nonBlankLines lines
    if proxies.isEmpty then none
    else some (writeLines (collectResults (runAll probe proxies)))

/-! ### Helper lemmas -/

/-- `inet_aton` always produces exactly 4 address bytes. -/
theorem inet_aton_length {host : String} {ipb : List Nat}
    (h : inet_aton host = some ipb) : ipb.length = 4 := by
  unfold inet_aton at h
  split at h
  · exact absurd h (by simp)
  · dsimp only at h
    repeat' split at h
    all_goals
      first
        | (simp only [Option.some.injEq] at h
           subst h
           rfl)
        | exact absurd h (by simp)

/-- A cache hit returns the cached value with no query. -/
theorem get_country_hit {api : String → ApiResult} {ip : String}
    {cache : List (String × String)} {c : String}
    (h : cache.lookup ip = some c) :
    get_country api ip cache = (c, cache, 0) := by
  unfold get_country
  rw [h]

/-- A cache miss queries once and caches the computed value. -/
theorem get_country_miss {api : String → ApiResult} {ip : String}
    {cache : List (String × String)} (h : cache.lookup ip = none) :
    get_country api ip cache =
      (countryOf (api ip), (ip, countryOf (api ip)) :: cache, 1) := by
  unfold get_country
  rw [h]

/-- Every failed query outcome degrades to the `"??"` sentinel. -/
theorem countryOf_failed {r : ApiResult} (h : apiFailed r) :
    countryOf r = "??" := by
  cases r with
  | exc => rfl
  | resp status body =>
    rcases h with h | h | h
    · simp only [countryOf]
      rw [if_neg (by simpa using h)]
    · subst h
      simp only [countryOf]
      cases hb : (status == 200) <;> simp [hb]
    · subst h
      simp only [countryOf]
      cases hb : (status == 200) <;> simp [hb]

/-- `pingLE` is transitive. -/
theorem pingLE_trans : ∀ (a b c : ProbeResult),
    pingLE a b → pingLE b c → pingLE a c := by
  intro a b c hab hbc
  simp only [pingLE, decide_eq_true_eq] at *
  exact le_trans hab hbc

/-- `pingLE` is total. -/
theorem pingLE_total : ∀ (a b : ProbeResult), pingLE a b || pingLE b a := by
  intro a b
  simp only [pingLE, Bool.or_eq_true, decide_eq_true_eq]
  exact le_total _ _

/-! ### Claim theorems -/

/-- C1 (counterexample): on a timed-out read the SOCKS5 negotiate
operation raises (the exception propagates to the prober's catch-all);
it does not return `false` as the claim states. -/
theorem handshake_socks5_timeout_raises :
    (handshake_socks5 ⟨none⟩ "10.0.0.1" 1080).1 = Except.error () ∧
    (handshake_socks5 ⟨none⟩ "10.0.0.1" 1080).1 ≠ Except.ok false :=
  ⟨rfl, fun h => Except.noConfusion h⟩

/-- C1 (amended): `handshake_socks5` always sends the greeting
`05 01 00`; when the 2-byte read returns bytes it returns true iff they
equal `05 00` (any other reply, including a short read, gives false);
when the read times out it raises instead of returning false. -/
theorem handshake_socks5_spec (s : Conn) (host : String) (port : Int) :
    (handshake_socks5 s host port).2 = [0x05, 0x01, 0x00] ∧
    (∀ bs, s.reply = some bs →
      ((handshake_socks5 s host port).1 = Except.ok true ↔
        bs.take 2 = [0x05, 0x00])) ∧
    (s.reply = none →
      (handshake_socks5 s host port).1 = Except.error ()) := by
  obtain ⟨r⟩ := s
  refine ⟨by cases r <;> rfl, ?_, ?_⟩
  · rintro bs rfl
    simp [handshake_socks5, Conn.recv]
  · rintro rfl
    rfl

/-- C1 (witness): the spec instances at concrete inputs. -/
theorem handshake_socks5_spec_witness :
    (handshake_socks5 ⟨some [0x05, 0x00]⟩ "1.2.3.4" 1080).1 = Except.ok true ∧
    (handshake_socks5 ⟨none⟩ "1.2.3.4" 1080).1 = Except.error () :=
  ⟨((handshake_socks5_spec ⟨some [0x05, 0x00]⟩ "1.2.3.4" 1080).2.1
      [0x05, 0x00] rfl).mpr rfl,
   (handshake_socks5_spec ⟨none⟩ "1.2.3.4" 1080).2.2 rfl⟩

/-- C2: for every host accepted by the IPv4 parser and every in-range
port, `handshake_socks4` sends exactly the 9-byte request
`04 01 ⟨port hi⟩ ⟨port lo⟩ ⟨4 address bytes⟩ 00`, and returns true iff
the reply read has length exactly 8 and byte 1 equals `0x5A`. -/
theorem handshake_socks4_spec (s : Conn) (host : String) (port : Int)
    (ipb : List Nat) (hip : inet_aton host = some ipb)
    (h0 : 0 ≤ port) (h1 : port ≤ 65535) :
    (handshake_socks4 s host port).2 =
      [0x04, 0x01] ++ [port.toNat / 256, port.toNat % 256] ++ ipb ++ [0x00] ∧
    (handshake_socks4 s host port).2.length = 9 ∧
    ∀ bs, s.reply = some bs →
      ((handshake_socks4 s host port).1 = Except.ok true ↔
        (bs.take 8).length = 8 ∧ (bs.take 8).getD 1 0 = 0x5A) := by
  have hport : ¬(port < 0 ∨ 65535 < port) := by omega
  obtain ⟨r⟩ := s
  unfold handshake_socks4
  rw [hip]
  dsimp only
  rw [if_neg hport]
  refine ⟨?_, ?_, ?_⟩
  · cases r <;> rfl
  · cases r <;> simp [Conn.recv, inet_aton_length hip]
  · rintro bs rfl
    simp [Conn.recv]

/-- C2 (witness): a conforming SOCKS4 target at a concrete input. -/
theorem handshake_socks4_spec_witness :
    (handshake_socks4 ⟨some [0, 0x5A, 0, 0, 0, 0, 0, 0]⟩ "1.2.3.4" 1080).1 =
      Except.ok true ∧
    (handshake_socks4 ⟨some [0, 0x5A, 0, 0, 0, 0, 0, 0]⟩ "1.2.3.4" 1080).2.length
      = 9 := by
  have h := handshake_socks4_spec ⟨some [0, 0x5A, 0, 0, 0, 0, 0, 0]⟩ "1.2.3.4"
    1080 [1, 2, 3, 4] (by decide) (by decide) (by decide)
  exact ⟨(h.2.2 [0, 0x5A, 0, 0, 0, 0, 0, 0] rfl).mpr (by decide), h.2.1⟩

/-- Split a character list at every dot. -/
def splitDots : List Char → List (List Char)
  | [] => [[]]
  | '.' :: cs => [] :: splitDots cs
  | c :: cs =>
    match splitDots cs with
    | [] => [[c]]
    | p :: ps => (c :: p) :: ps

/-- Nonempty all-decimal-digit part, as a number. -/
def decPart? (p : List Char) : Option Nat :=
  if p ≠ [] ∧ p.all Char.isDigit then
    some (p.foldl (fun a c => a * 10 + (c.toNat - 48)) 0)
  else none

/-- Definition taken from the spec's words, for comparison with the
code's guard: a valid dotted-decimal IPv4 literal, i.e. exactly four
dot-separated decimal numbers, each between 0 and 255. -/
def isDottedDecimalQuad (host : String) : Bool :=
  match splitDots host.toList with
  | [a, b, c, d] =>
    [a, b, c, d].all fun p =>
      match decPart? p with
      | some n => decide (n ≤ 255)
      | none => false
  | _ => false

/-- C3 (counterexample): `"127.1"` is not a valid dotted-decimal IPv4
literal, yet `socket.inet_aton` accepts it (legacy short form of
`127.0.0.1`), so `handshake_socks4` does perform a write for it, against
the claim. -/
theorem handshake_socks4_short_form_writes :
    isDottedDecimalQuad "127.1" = false ∧
    inet_aton "127.1" = some [127, 0, 0, 1] ∧
    (handshake_socks4 ⟨some []⟩ "127.1" 1080).2 =
      [4, 1, 4, 56, 127, 0, 0, 1, 0] ∧
    (handshake_socks4 ⟨some []⟩ "127.1" 1080).2 ≠ [] := by
  refine ⟨?_, ?_, ?_, ?_⟩ <;> decide

/-- C3 (amended): for every host string that the IPv4 literal parser
rejects, `handshake_socks4` returns false and writes nothing. -/
theorem handshake_socks4_no_parse_no_write (s : Conn) (host : String)
    (port : Int) (h : inet_aton host = none) :
    (handshake_socks4 s host port).1 = Except.ok false ∧
    (handshake_socks4 s host port).2 = [] := by
  unfold handshake_socks4
  rw [h]
  exact ⟨rfl, rfl⟩

/-- C3 (witness): a hostname fails the handshake without a write. -/
theorem handshake_socks4_no_parse_no_write_witness :
    (handshake_socks4 ⟨some []⟩ "example.com" 1080).1 = Except.ok false ∧
    (handshake_socks4 ⟨some []⟩ "example.com" 1080).2 = [] :=
  handshake_socks4_no_parse_no_write ⟨some []⟩ "example.com" 1080 (by decide)

/-- C4: `handshake_http` always sends the fixed GET request, and when
the 7-byte read returns bytes it returns true iff the first 5 bytes of
the reply are exactly `H`,`T`,`T`,`P`,`/`, regardless of the rest. -/
theorem handshake_http_spec (s : Conn) (host : String) (port : Int) :
    (handshake_http s host port).2 = httpRequest ∧
    ∀ bs, s.reply = some bs →
      ((handshake_http s host port).1 = Except.ok true ↔
        bs.take 5 = strBytes "HTTP/") := by
  obtain ⟨r⟩ := s
  refine ⟨by cases r <;> rfl, ?_⟩
  rintro bs rfl
  simp only [handshake_http, Conn.recv, Except.ok.injEq]
  have h5 : (strBytes "HTTP/").length = 5 := rfl
  rw [List.isPrefixOf_iff_prefix, List.prefix_iff_eq_take, h5, List.take_take]
  norm_num
  exact eq_comm

/-- C4 (witness): a reply starting with `HTTP/` is accepted. -/
theorem handshake_http_spec_witness :
    (handshake_http ⟨some (strBytes "HTTP/1.0 200 OK")⟩ "proxy.example"
      8080).1 = Except.ok true :=
  ((handshake_http_spec ⟨some (strBytes "HTTP/1.0 200 OK")⟩ "proxy.example"
      8080).2 (strBytes "HTTP/1.0 200 OK") rfl).mpr (by decide)

/-- C5: when the host misses the cache and the external query fails in
any modelled way, `get_country` returns the sentinel `"??"` (it never
raises), the sentinel is cached, and a second resolution of the same
host issues no external query and returns `"??"` again. -/
theorem get_country_failure_cached (api : String → ApiResult) (ip : String)
    (cache : List (String × String)) (hmiss : cache.lookup ip = none)
    (hfail : apiFailed (api ip)) :
    (get_country api ip cache).1 = "??" ∧
    ((get_country api ip cache).2.1).lookup ip = some "??" ∧
    ∀ api2, (get_country api2 ip (get_country api ip cache).2.1).2.2 = 0 ∧
      (get_country api2 ip (get_country api ip cache).2.1).1 = "??" := by
  rw [get_country_miss hmiss, countryOf_failed hfail]
  have hlook : (("??" : String) ≠ "" → True) := fun _ => trivial
  have hhit : ((ip, "??") :: cache).lookup ip = some "??" := by
    simp [List.lookup]
  refine ⟨rfl, hhit, fun api2 => ?_⟩
  rw [get_country_hit hhit]
  exact ⟨rfl, rfl⟩

/-- C5 (witness): an exception-throwing query resolves to `"??"`. -/
theorem get_country_failure_cached_witness :
    (get_country (fun _ => ApiResult.exc) "1.2.3.4" []).1 = "??" ∧
    ((get_country (fun _ => ApiResult.exc) "1.2.3.4" []).2.1).lookup "1.2.3.4"
      = some "??" :=
  ⟨(get_country_failure_cached (fun _ => ApiResult.exc) "1.2.3.4" [] rfl
      trivial).1,
   (get_country_failure_cached (fun _ => ApiResult.exc) "1.2.3.4" [] rfl
      trivial).2.1⟩

/-- C6: resolving the same host twice in one run issues at most one
external query in total, and both calls return the same country code
(whatever the second call's oracle would have answered). -/
theorem get_country_idempotent (api1 api2 : String → ApiResult)
    (ip : String) (cache : List (String × String)) :
    (get_country api2 ip (get_country api1 ip cache).2.1).1 =
      (get_country api1 ip cache).1 ∧
    (get_country api1 ip cache).2.2 +
      (get_country api2 ip (get_country api1 ip cache).2.1).2.2 ≤ 1 := by
  rcases h : cache.lookup ip with _ | c
  · rw [get_country_miss h,
      get_country_hit (show ((ip, countryOf (api1 ip)) :: cache).lookup ip =
        some (countryOf (api1 ip)) by simp [List.lookup])]
    exact ⟨rfl, by norm_num⟩
  · rw [get_country_hit h, get_country_hit h]
    exact ⟨rfl, by norm_num⟩

/-- C7: the prober returns a present outcome iff the literal parses,
the connection opens and the handshake returns true; the outcome is then
the literal, the elapsed latency and the resolved country.  Every
modelled failure (parse error, connect exception, read exception,
handshake false) yields the absent outcome. -/
theorem measure_proxy_connection_spec (connect : String → Int → Option Conn)
    (api : String → ApiResult)
    (handshake : Conn → String → Int → Except Unit Bool × List Nat)
    (elapsed : ℚ) (cache : List (String × String)) (proxy : String)
    (out : ProbeResult) :
    (measure_proxy_connection connect api handshake elapsed cache proxy).1 =
        some out ↔
      ∃ host port s, parseProxy proxy = some (host, port) ∧
        connect host port = some s ∧
        (handshake s host port).1 = Except.ok true ∧
        out = (proxy, elapsed, (get_country api host cache).1) := by
  unfold measure_proxy_connection
  rcases hp : parseProxy proxy with _ | ⟨host, port⟩
  · simp
  · dsimp only
    rcases hc : connect host port with _ | s
    · simp [hp, hc]
    · dsimp only
      rcases hh : (handshake s host port).1 with e | b
      · simp [hp, hc, hh]
      · rcases b with _ | _
        · simp [hp, hc, hh]
        · dsimp only
          constructor
          · intro h
            exact ⟨host, port, s, rfl, hc, hh, (Option.some_injective _ h).symm⟩
          · rintro ⟨host', port', s', hp', hc', hh', rfl⟩
            obtain ⟨rfl, rfl⟩ : host = host' ∧ port = port' := by
              simpa using hp'
            obtain rfl : s = s' := by
              simpa using hc.symm.trans hc'
            rfl

/-- C8: the written batch output is one line per successful outcome, in
latency order: the lines are the formatted stable sort of the results —
the sorted list is a permutation of the collected results, its latencies
are non-decreasing, every latency-ordered subsequence of the collected
results survives in order (stability: ties keep their prior relative
order), and each line has the exact form
`proxy (ping: XXs, country: CC)`. -/
theorem writeLines_spec (results : List ProbeResult) (_hne : results ≠ []) :
    writeLines results = (sortResults results).map formatLine ∧
    (sortResults results).Perm results ∧
    (sortResults results).Pairwise (fun a b => a.2.1 ≤ b.2.1) ∧
    (∀ c : List ProbeResult, c.Sublist results →
      c.Pairwise (fun a b => a.2.1 ≤ b.2.1) →
      c.Sublist (sortResults results)) ∧
    ∀ r ∈ sortResults results,
      formatLine r =
        r.1 ++ " (ping: " ++ fmt2 r.2.1 ++ "s, country: " ++ r.2.2 ++ ")" := by
  refine ⟨rfl, List.mergeSort_perm results pingLE, ?_, ?_, fun r _ => rfl⟩
  · exact (List.sorted_mergeSort pingLE_trans pingLE_total results).imp
      (fun h => by simpa [pingLE] using h)
  · intro c hsub hpw
    exact List.sublist_mergeSort pingLE_trans pingLE_total
      (hpw.imp (fun h => by simpa [pingLE] using h)) hsub

/-- C8 (witness): the spec's example batch with latencies
0.30, 0.05, 0.12. -/
theorem writeLines_spec_witness :
    (sortResults [("a:1", (3 : ℚ)/10, "US"), ("b:2", (1 : ℚ)/20, "DE"),
        ("c:3", (3 : ℚ)/25, "??")]).Perm
      [("a:1", (3 : ℚ)/10, "US"), ("b:2", (1 : ℚ)/20, "DE"),
        ("c:3", (3 : ℚ)/25, "??")] :=
  (writeLines_spec [("a:1", (3 : ℚ)/10, "US"), ("b:2", (1 : ℚ)/20, "DE"),
      ("c:3", (3 : ℚ)/25, "??")] (by simp)).2.1

/-- C9 (counterexample): an endpoint literal appearing on two input
lines is probed twice — two outcomes are produced for it in the run,
against the claim's "exactly one per endpoint". -/
theorem runAll_duplicate_probed_twice :
    (((runAll (fun _ => none) ["1.2.3.4:80", "1.2.3.4:80"]).map
        Prod.fst).count "1.2.3.4:80" = 2) ∧
    "1.2.3.4:80" ∈ ["1.2.3.4:80", "1.2.3.4:80"] := by
  constructor <;> decide

/-- C9 (amended): exactly one outcome is produced per input line — an
endpoint occurring on n lines is probed n times, never retried or
merged; when the input lines are distinct, every endpoint in the input
gets exactly one outcome.  `completed` is any completion order of the
scheduler's futures. -/
theorem runAll_once_per_line (probe : String → Option ProbeResult)
    (proxies : List String)
    (completed : List (String × Option ProbeResult))
    (hperm : completed.Perm (runAll probe proxies)) (e : String) :
    (completed.map Prod.fst).count e = proxies.count e ∧
    (proxies.Nodup → e ∈ proxies → (completed.map Prod.fst).count e = 1) := by
  have hmap : (completed.map Prod.fst).Perm proxies := by
    have h1 : (runAll probe proxies).map Prod.fst = proxies := by
      simp [runAll, List.map_map, Function.comp_def]
    exact h1 ▸ hperm.map Prod.fst
  refine ⟨hmap.count_eq e, fun hnd he => ?_⟩
  rw [hmap.count_eq e]
  exact List.count_eq_one_of_mem hnd he

/-- C9 (witness): with distinct input lines each endpoint is probed
exactly once. -/
theorem runAll_once_per_line_witness :
    ((runAll (fun _ => none) ["a:1", "b:2"]).map Prod.fst).count "a:1" = 1 :=
  (runAll_once_per_line (fun _ => none) ["a:1", "b:2"]
      (runAll (fun _ => none) ["a:1", "b:2"]) (List.Perm.refl _) "a:1").2
    (by decide) (by decide)

/-- C10: a batch produces an output artifact iff its input file exists
and has at least one non-blank line; in particular when every probe is
absent the artifact is still created, containing zero lines. -/
theorem process_file_artifact (probe : String → Option ProbeResult)
    (input : Option (List String)) :
    ((process_file probe input).isSome ↔
      ∃ lines, input = some lines ∧ nonBlankLines lines ≠ []) ∧
    ∀ lines, input = some lines → nonBlankLines lines ≠ [] →
      (∀ p, probe p = none) → process_file probe input = some [] := by
  constructor
  · rcases input with _ | lines
    · simp [process_file]
    · cases hne : (nonBlankLines lines).isEmpty
      · have hne' : nonBlankLines lines ≠ [] := List.isEmpty_eq_false.mp hne
        simp [process_file, hne, hne']
      · have hne' : nonBlankLines lines = [] := List.isEmpty_iff.mp hne
        simp [process_file, hne, hne']
  · rintro lines rfl hne hnone
    simp only [process_file]
    rw [if_neg (by simpa [List.isEmpty_iff] using hne)]
    have hres : collectResults (runAll probe (nonBlankLines lines)) = [] := by
      simp [collectResults, runAll, List.filterMap_map, Function.comp_def,
        hnone, List.filterMap_eq_nil_iff]
    rw [hres]
    simp [writeLines, sortResults]

/-- C10 (witness): an input with one non-blank line and an all-absent
probe still produces an (empty) artifact. -/
theorem process_file_artifact_witness :
    process_file (fun _ => none) (some ["1.2.3.4:80", ""]) = some [] :=
  (process_file_artifact (fun _ => none) (some ["1.2.3.4:80", ""])).2
    ["1.2.3.4:80", ""] rfl (by decide) (fun _ => rfl)

/-- C7 (witness): a concrete world where the connection opens and the
SOCKS5 handshake accepts yields the present outcome. -/
theorem measure_proxy_connection_spec_witness :
    (measure_proxy_connection (fun _ _ => some ⟨some [5, 0]⟩)
        (fun _ => ApiResult.exc) handshake_socks5 ((1 : ℚ)/10) []
        "1.2.3.4:1080").1 =
      some ("1.2.3.4:1080", (1 : ℚ)/10,
        (get_country (fun _ => ApiResult.exc) "1.2.3.4" []).1) :=
  (measure_proxy_connection_spec (fun _ _ => some ⟨some [5, 0]⟩)
      (fun _ => ApiResult.exc) handshake_socks5 ((1 : ℚ)/10) []
      "1.2.3.4:1080" _).mpr
    ⟨"1.2.3.4", 1080, ⟨some [5, 0]⟩, rfl, rfl, rfl, rfl⟩
